import Mathlib

/-!
Shallow embedding of the checkpoint/branch store of
`langgraph-checkpoint-neo4j` and its demo backend routers
(`demo/backend/app/routers/history.py`, `threads.py`, `messages.py`).

The demo routers under `src/` are translated directly.  The Cypher
statements they execute (`CYPHER_CREATE_BRANCH`, `CYPHER_SET_ACTIVE_BRANCH`,
`CYPHER_UPDATE_BRANCH_HEAD`, `CYPHER_LIST_BRANCHES`,
`CYPHER_GET_CHECKPOINT_TREE`) and the saver methods (`aget_tuple`, `alist`,
`aput`) live in `langgraph/checkpoint/neo4j/base.py` / `aio.py`, which are
not part of the provided sources; those primitives are modelled from the
spec (each such definition says so in its doc comment).

Timestamps are modelled as natural numbers; the payload's
`channel_values.messages` list is modelled as an opaque `List String`
(the store never interprets message contents, only their count and order).
-/

namespace LGNeo4j

/-- A checkpoint record: an immutable snapshot, as in spec section 3
(`checkpoint_id`, `namespace`, `parent_checkpoint_id`, `step`, `source`,
payload messages, `created_at`). -/
structure Checkpoint where
  checkpoint_id : String
  thread_id : String
  checkpoint_ns : String
  parent_id : Option String
  step : Nat
  source : String
  messages : List String
  created_at : Nat
deriving DecidableEq

/-- A branch record: a named mutable pointer into the checkpoint tree,
as in spec section 3. -/
structure Branch where
  branch_id : String
  thread_id : String
  checkpoint_ns : String
  name : String
  fork_point_id : Option String
  head_checkpoint_id : Option String
  is_active : Bool
  created_at : Nat
deriving DecidableEq

/-- The durable store: all checkpoint records and all branch records. -/
structure Store where
  checkpoints : List Checkpoint
  branches : List Branch
deriving DecidableEq

/-- Membership test for a checkpoint record in a `(thread_id, namespace)`
conversation. -/
def Checkpoint.inConv (c : Checkpoint) (tid ns : String) : Bool :=
  c.thread_id == tid && c.checkpoint_ns == ns

/-- Membership test for a branch record in a `(thread_id, namespace)`
conversation. -/
def Branch.inConv (b : Branch) (tid ns : String) : Bool :=
  b.thread_id == tid && b.checkpoint_ns == ns

/-- Look up the checkpoint with the given id in a conversation. -/
def findCheckpoint (s : Store) (tid ns cid : String) : Option Checkpoint :=
  s.checkpoints.find? fun c => c.inConv tid ns && c.checkpoint_id == cid

/-- The first branch record of the conversation flagged active. -/
def activeBranch (s : Store) (tid ns : String) : Option Branch :=
  s.branches.find? fun b => b.inConv tid ns && b.is_active

/-- All branch records of a conversation (result of `CYPHER_LIST_BRANCHES`). -/
def convBranches (s : Store) (tid ns : String) : List Branch :=
  s.branches.filter fun b => b.inConv tid ns

/-- Whether a branch with the given id exists in the conversation. -/
def branchExists (s : Store) (tid ns bid : String) : Bool :=
  s.branches.any fun b => b.inConv tid ns && b.branch_id == bid

/-- Whether the conversation has at least one checkpoint. -/
def hasConvCheckpoint (s : Store) (tid ns : String) : Bool :=
  s.checkpoints.any fun c => c.inConv tid ns

/-- Modelled from the spec: `aget_tuple` with an explicit `checkpoint_id`
(saver method of `langgraph/checkpoint/neo4j`, absent from the provided
sources) returns the checkpoint with that id for the `(thread_id,
namespace)` pair, or nothing when it does not exist (spec section 4.1,
`get`). -/
def agetTupleById (s : Store) (tid ns cid : String) : Option Checkpoint :=
  findCheckpoint s tid ns cid

/-- Modelled from the spec: `aget_tuple` without a `checkpoint_id` returns
the most recently created checkpoint reachable from the active branch's
head; per spec section 4.1 the chain from the head is ordered most recent
first, so this is the checkpoint the head points at, and nothing when the
conversation has no active branch or the head resolves to no checkpoint. -/
def agetTupleLatest (s : Store) (tid ns : String) : Option Checkpoint :=
  match activeBranch s tid ns with
  | none => none
  | some b =>
    match b.head_checkpoint_id with
    | none => none
    | some h => findCheckpoint s tid ns h

/-- Walk parent links from a checkpoint id, most recent first, with fuel
to guarantee termination on arbitrary stores. -/
def chainFrom (s : Store) (tid ns : String) : Option String → Nat → List Checkpoint
  | none, _ => []
  | some _, 0 => []
  | some cid, fuel + 1 =>
    match findCheckpoint s tid ns cid with
    | none => []
    | some c => c :: chainFrom s tid ns c.parent_id fuel

/-- Modelled from the spec: `alist` (saver method, absent from the provided
sources) walks parent links starting at the active branch's head back to
the root, most recent first (spec section 4.1, `list_chain`). -/
def alist (s : Store) (tid ns : String) : List Checkpoint :=
  match activeBranch s tid ns with
  | none => []
  | some b => chainFrom s tid ns b.head_checkpoint_id s.checkpoints.length

/-- The branch record written by `CYPHER_CREATE_BRANCH` (also the record
the fork router returns). -/
def newBranchRec (tid ns bid bname fpid : String) (now : Nat) : Branch :=
  { branch_id := bid, thread_id := tid, checkpoint_ns := ns, name := bname,
    fork_point_id := some fpid, head_checkpoint_id := some fpid,
    is_active := false, created_at := now }

/-- Per-record effect of `CYPHER_SET_ACTIVE_BRANCH`: within the
conversation, a branch becomes active exactly when it is the named one. -/
def setActiveFlag (tid ns bid : String) (b : Branch) : Branch :=
  if b.inConv tid ns then { b with is_active := b.branch_id == bid } else b

/-- Per-record effect of `CYPHER_UPDATE_BRANCH_HEAD`: the conversation's
active branches get their head moved to the given checkpoint id. -/
def setHeadPtr (tid ns cid : String) (b : Branch) : Branch :=
  if b.inConv tid ns && b.is_active then { b with head_checkpoint_id := some cid } else b

/-- Modelled from the spec: `CYPHER_CREATE_BRANCH` (absent from the provided
sources) creates a new Branch record with `fork_point_id =
head_checkpoint_id = ` the given fork point and `is_active = false`
(spec section 4.2, `fork`): purely additive. -/
def cypherCreateBranch (s : Store) (tid ns bid bname fpid : String) (now : Nat) : Store :=
  { s with branches := s.branches ++ [newBranchRec tid ns bid bname fpid now] }

/-- Modelled from the spec: `CYPHER_SET_ACTIVE_BRANCH` (absent from the
provided sources) atomically deactivates the conversation's active branch
and activates the named one, returning a record exactly when the branch
exists; when it does not exist nothing matches and the store is unchanged
(spec section 4.2, `switch_active`). -/
def cypherSetActiveBranch (s : Store) (tid ns bid : String) : Store × Bool :=
  if branchExists s tid ns bid then
    ({ s with branches := s.branches.map (setActiveFlag tid ns bid) }, true)
  else (s, false)

/-- Modelled from the spec: `CYPHER_UPDATE_BRANCH_HEAD` (absent from the
provided sources) sets the active branch's head to the given checkpoint id
(spec section 4.2, `advance_active`). -/
def cypherUpdateBranchHead (s : Store) (tid ns cid : String) : Store :=
  { s with branches := s.branches.map (setHeadPtr tid ns cid) }

/-- The checkpoint record written by append. -/
def newCheckpointRec (tid ns cid : String) (step : Nat) (src : String)
    (msgs : List String) (now : Nat) (parent : Option String) : Checkpoint :=
  { checkpoint_id := cid, thread_id := tid, checkpoint_ns := ns, parent_id := parent,
    step := step, source := src, messages := msgs, created_at := now }

/-- The root branch record materialized on a conversation's first
checkpoint (spec section 9's implicit-default-branch note). -/
def rootBranchRec (tid ns rootBid cid : String) (now : Nat) : Branch :=
  { branch_id := rootBid, thread_id := tid, checkpoint_ns := ns, name := "main",
    fork_point_id := none, head_checkpoint_id := some cid,
    is_active := true, created_at := now }

/-- Modelled from the spec: `aput`/append (saver method, absent from the
provided sources) creates a new checkpoint whose parent is the active
branch's current head and advances that head; on the first checkpoint of a
conversation it materializes a root branch (named "main", active) per spec
section 9's implicit-default-branch note. -/
def appendCheckpoint (s : Store) (tid ns cid : String) (step : Nat) (src : String)
    (msgs : List String) (now : Nat) (rootBid : String) : Store :=
  match activeBranch s tid ns with
  | some b =>
    { checkpoints := s.checkpoints
        ++ [newCheckpointRec tid ns cid step src msgs now b.head_checkpoint_id],
      branches := s.branches.map (setHeadPtr tid ns cid) }
  | none =>
    { checkpoints := s.checkpoints ++ [newCheckpointRec tid ns cid step src msgs now none],
      branches := s.branches ++ [rootBranchRec tid ns rootBid cid now] }

/-- An HTTP-level failure raised by a router (`HTTPException`); the demo
only raises 404. -/
inductive ApiErr where
  | notFound : String → ApiErr
deriving DecidableEq

/-- Response model `CheckpointSummary` (`models.py`). -/
structure CheckpointSummary where
  checkpoint_id : String
  step : Nat
  source : String
  timestamp : Nat
  message_count : Nat
deriving DecidableEq

/-- Response model `CheckpointDetail` (`models.py`). -/
structure CheckpointDetail where
  checkpoint_id : String
  step : Nat
  source : String
  timestamp : Nat
  messages : List String
  parent_checkpoint_id : Option String
deriving DecidableEq

/-- Response model `Thread` (`models.py`). -/
structure ThreadModel where
  id : String
  name : String
  created_at : Nat
  last_message_at : Option Nat
  message_count : Nat
deriving DecidableEq

/-- Response model for `switch_branch`'s returned dict (`history.py`). -/
structure SwitchResponse where
  status : String
  thread_id : String
  branch_id : String
  messages : List String
deriving DecidableEq

/-- Response model for `time_travel`'s returned dict (`history.py`). -/
structure TimeTravelResponse where
  status : String
  thread_id : String
  checkpoint_id : String
  branch_id : String
  branch_name : String
  messages : List String
deriving DecidableEq

/-- Response model `CheckpointTreeNode` (`models.py`). -/
structure CheckpointTreeNode where
  checkpoint_id : String
  parent_id : Option String
  branch_id : Option String
  branch_name : Option String
deriving DecidableEq

/-- Response model `CheckpointTree` (`models.py`). -/
structure CheckpointTree where
  nodes : List CheckpointTreeNode
  branches : List Branch
deriving DecidableEq

/-- Router `list_checkpoints` (`history.py` line 35): for each tuple of
`alist` (namespace fixed to "") it builds a summary from the tuple's
checkpoint id, metadata step and source, the message list's length — and
`datetime.utcnow()` at read time as the timestamp (`now` here), exactly as
the source does (its own comment reads "Would come from checkpoint
created_at"). -/
def list_checkpoints (s : Store) (tid : String) (now : Nat) : List CheckpointSummary :=
  (alist s tid "").map fun c =>
    { checkpoint_id := c.checkpoint_id, step := c.step, source := c.source,
      timestamp := now, message_count := c.messages.length }

/-- Router `get_checkpoint` (`history.py` line 61): 404 when `aget_tuple`
with the explicit id returns nothing, otherwise the checkpoint's data with
its parent id resolved; the timestamp again is read-time `utcnow`. -/
def get_checkpoint (s : Store) (tid cid : String) (now : Nat) : Except ApiErr CheckpointDetail :=
  match agetTupleById s tid "" cid with
  | none => .error (.notFound "Checkpoint not found")
  | some c =>
    .ok { checkpoint_id := cid, step := c.step, source := c.source, timestamp := now,
          messages := c.messages, parent_checkpoint_id := c.parent_id }

/-- Router `get_messages` (`messages.py` line 47): `aget_tuple` with no
checkpoint id; when it returns nothing the router returns an empty list,
otherwise the checkpoint's messages. -/
def get_messages (s : Store) (tid : String) : List String :=
  match agetTupleLatest s tid "" with
  | none => []
  | some c => c.messages

/-- Router `fork_branch` (`history.py` line 129): verify the source
checkpoint exists (404 otherwise), generate the branch id (`uuid.uuid4()`,
passed in as `freshBid`) and the name (`request.name` or
`fork-` + first 8 characters of the id), run `CYPHER_CREATE_BRANCH`, and
return the Branch response.  Returns the (possibly unchanged) store
together with the outcome. -/
def fork_branch (s : Store) (tid cid : String) (reqName : Option String)
    (freshBid : String) (now : Nat) : Store × Except ApiErr Branch :=
  match agetTupleById s tid "" cid with
  | none => (s, .error (.notFound "Checkpoint not found"))
  | some _ =>
    let bname := reqName.getD ("fork-" ++ freshBid.take 8)
    ((cypherCreateBranch s tid "" freshBid bname cid now),
     .ok (newBranchRec tid "" freshBid bname cid now))

/-- Router `switch_branch` (`history.py` line 176): run
`CYPHER_SET_ACTIVE_BRANCH`; 404 when no record comes back; then read the
new active branch's head checkpoint via `aget_tuple` (no id) and return its
messages (empty when the tuple is missing). -/
def switch_branch (s : Store) (tid bid : String) : Store × Except ApiErr SwitchResponse :=
  let r := cypherSetActiveBranch s tid "" bid
  if r.2 then
    let msgs := match agetTupleLatest r.1 tid "" with
      | none => []
      | some c => c.messages
    (r.1, .ok { status := "switched", thread_id := tid, branch_id := bid, messages := msgs })
  else (s, .error (.notFound "Branch not found"))

/-- The branch (if any) whose fork point is the given checkpoint; used by
the tree query's annotation. -/
def branchForkingAt (s : Store) (tid ns cid : String) : Option Branch :=
  s.branches.find? fun b => b.inConv tid ns && b.fork_point_id == some cid

/-- Modelled from the spec: `CYPHER_GET_CHECKPOINT_TREE` (absent from the
provided sources) returns one `(checkpoint_id, parent_id)` row for every
checkpoint of the conversation regardless of branch, annotated with the
branch (if any) whose fork point is that checkpoint (spec section 4.3,
`full_tree`). -/
def cypherGetCheckpointTree (s : Store) (tid ns : String) : List CheckpointTreeNode :=
  (s.checkpoints.filter fun c => c.inConv tid ns).map fun c =>
    { checkpoint_id := c.checkpoint_id, parent_id := c.parent_id,
      branch_id := (branchForkingAt s tid ns c.checkpoint_id).map Branch.branch_id,
      branch_name := (branchForkingAt s tid ns c.checkpoint_id).map Branch.name }

/-- Router `get_checkpoint_tree` (`history.py` line 213): runs
`CYPHER_GET_CHECKPOINT_TREE` for the nodes and `CYPHER_LIST_BRANCHES` for
the branches, namespace fixed to "". -/
def get_checkpoint_tree (s : Store) (tid : String) : CheckpointTree :=
  { nodes := cypherGetCheckpointTree s tid "", branches := convBranches s tid "" }

/-- Router `time_travel` (`history.py` line 260): verify the checkpoint
exists (404 otherwise), then run three separate sub-writes in one driver
session — create branch, set it active, update the active head — and
return the target checkpoint's messages.  Each `session.run` call
auto-commits on its own; there is no enclosing transaction. -/
def time_travel (s : Store) (tid cid : String) (reqBranchName : Option String)
    (freshBid : String) (now : Nat) : Store × Except ApiErr TimeTravelResponse :=
  match agetTupleById s tid "" cid with
  | none => (s, .error (.notFound "Checkpoint not found"))
  | some c =>
    let bname := reqBranchName.getD ("fork-" ++ freshBid.take 8)
    let s1 := cypherCreateBranch s tid "" freshBid bname cid now
    let s2 := (cypherSetActiveBranch s1 tid "" freshBid).1
    let s3 := cypherUpdateBranchHead s2 tid "" cid
    (s3, .ok { status := "forked", thread_id := tid, checkpoint_id := cid,
               branch_id := freshBid, branch_name := bname, messages := c.messages })

/-- The store state persisted when a failure interrupts `time_travel` after
`k` of its three sub-writes have executed: because the source issues three
separate auto-commit `session.run` calls with no enclosing transaction,
the first `k` sub-writes remain committed. -/
def time_travel_interrupted (s : Store) (tid cid : String) (reqBranchName : Option String)
    (freshBid : String) (now : Nat) (k : Nat) : Store :=
  match agetTupleById s tid "" cid with
  | none => s
  | some _ =>
    let bname := reqBranchName.getD ("fork-" ++ freshBid.take 8)
    let s1 := cypherCreateBranch s tid "" freshBid bname cid now
    let s2 := (cypherSetActiveBranch s1 tid "" freshBid).1
    let s3 := cypherUpdateBranchHead s2 tid "" cid
    if k = 0 then s else if k = 1 then s1 else if k = 2 then s2 else s3

/-- All checkpoints of a thread across namespaces, as matched by
`get_thread`'s inline Cypher (`threads.py` line 87), which filters only on
`thread_id`. -/
def checkpointsOfThread (s : Store) (tid : String) : List Checkpoint :=
  s.checkpoints.filter fun c => c.thread_id == tid

/-- Fold minimum of the `created_at` values of a nonempty list, mirroring
Cypher's `min(c.created_at)` aggregate. -/
def minCreated (x : Nat) (xs : List Nat) : Nat :=
  List.foldl min x xs

/-- Fold maximum of the `created_at` values of a nonempty list, mirroring
Cypher's `max(c.created_at)` aggregate. -/
def maxCreated (x : Nat) (xs : List Nat) : Nat :=
  List.foldl max x xs

/-- Router `get_thread` (`threads.py` line 79): aggregate over the thread's
checkpoints; when the aggregation yields no row (no checkpoints), return a
default Thread with `message_count = 0` and no `last_message_at`; otherwise
`message_count` is the checkpoint count, `created_at` the minimum and
`last_message_at` the maximum checkpoint `created_at`.
`now` stands for `datetime.utcnow()` in the no-row default. -/
def get_thread (s : Store) (tid : String) (now : Nat) : ThreadModel :=
  match checkpointsOfThread s tid with
  | [] =>
    { id := tid, name := "Thread " ++ tid.take 8 ++ "...", created_at := now,
      last_message_at := none, message_count := 0 }
  | c :: cs =>
    { id := tid, name := "Thread " ++ tid.take 8 ++ "...",
      created_at := minCreated c.created_at (cs.map Checkpoint.created_at),
      last_message_at := some (maxCreated c.created_at (cs.map Checkpoint.created_at)),
      message_count := (c :: cs).length }

/-- The head of the active branch, or null when there is none
(spec section 4.2, `current_head`). -/
def currentHead (s : Store) (tid ns : String) : Option String :=
  (activeBranch s tid ns).bind Branch.head_checkpoint_id

/-- Count of the conversation's branch records. -/
def branchCount (s : Store) (tid ns : String) : Nat :=
  s.branches.countP fun b => b.inConv tid ns

/-- Count of the conversation's active branch records. -/
def activeCount (s : Store) (tid ns : String) : Nat :=
  s.branches.countP fun b => b.inConv tid ns && b.is_active

/-- Per-conversation single-active-branch invariant: once the conversation
has any branch record (or any checkpoint, which under the root-branch
policy implies a branch), exactly one of its branches is active. -/
def invariantAt (s : Store) (tid ns : String) : Prop :=
  (branchCount s tid ns ≠ 0 ∨ hasConvCheckpoint s tid ns = true) → activeCount s tid ns = 1

instance (s : Store) (tid ns : String) : Decidable (invariantAt s tid ns) :=
  decidable_of_iff
    ((branchCount s tid ns ≠ 0 ∨ hasConvCheckpoint s tid ns = true)
      → activeCount s tid ns = 1)
    Iff.rfl

/-- Sample checkpoint `c0` used by the concrete witnesses. -/
def cp0 : Checkpoint :=
  { checkpoint_id := "c0", thread_id := "t1", checkpoint_ns := "", parent_id := none,
    step := 0, source := "input", messages := ["hello"], created_at := 5 }

/-- Sample checkpoint `c1`, child of `c0`. -/
def cp1 : Checkpoint :=
  { checkpoint_id := "c1", thread_id := "t1", checkpoint_ns := "", parent_id := some "c0",
    step := 1, source := "loop", messages := ["hello", "world"], created_at := 6 }

/-- Sample root branch of thread `t1`, active, head at `c1`. -/
def mainBr : Branch :=
  { branch_id := "b0", thread_id := "t1", checkpoint_ns := "", name := "main",
    fork_point_id := none, head_checkpoint_id := some "c1", is_active := true,
    created_at := 5 }

/-- Sample root branch of thread `t1` with head at `c0` (single-checkpoint
store). -/
def mainBr0 : Branch :=
  { branch_id := "b0", thread_id := "t1", checkpoint_ns := "", name := "main",
    fork_point_id := none, head_checkpoint_id := some "c0", is_active := true,
    created_at := 5 }

/-- Sample store: thread `t1` with chain `c0 <- c1` and active root branch. -/
def S0 : Store := { checkpoints := [cp0, cp1], branches := [mainBr] }

/-- Sample store: thread `t1` with the single checkpoint `c0` and active
root branch pointing at it. -/
def S1 : Store := { checkpoints := [cp0], branches := [mainBr0] }

/-- Sample store with no data at all for thread `t1` (it holds only thread
`t1`'s data nowhere; `t9` owns the single checkpoint). -/
def SOther : Store :=
  { checkpoints := [{ checkpoint_id := "c9", thread_id := "t9", checkpoint_ns := "",
                      parent_id := none, step := 0, source := "input",
                      messages := ["x"], created_at := 3 }],
    branches := [{ branch_id := "b9", thread_id := "t9", checkpoint_ns := "", name := "main",
                   fork_point_id := none, head_checkpoint_id := some "c9", is_active := true,
                   created_at := 3 }] }

/-- Sample inactive branch alt1 forked at c0, used by the C6 witness. -/
def altBr : Branch :=
  { branch_id := "alt1", thread_id := "t1", checkpoint_ns := "", name := "alt",
    fork_point_id := some "c0", head_checkpoint_id := some "c0", is_active := false,
    created_at := 8 }

/-- Sample store: S0 extended with the inactive branch alt1. -/
def S0Fork : Store := { checkpoints := [cp0, cp1], branches := [mainBr, altBr] }

/-- The branch record produced by forking S1 at c0 with generated id
`abcd1234x` and no supplied name, used by the concrete witnesses. -/
def forkedBr : Branch :=
  { branch_id := "abcd1234x", thread_id := "t1", checkpoint_ns := "", name := "fork-abcd1234",
    fork_point_id := some "c0", head_checkpoint_id := some "c0", is_active := false,
    created_at := 7 }

instance {ε α : Type} [DecidableEq ε] [DecidableEq α] : DecidableEq (Except ε α) := fun a b =>
  match a, b with
  | .ok x, .ok y =>
    if h : x = y then .isTrue (by rw [h]) else .isFalse (by intro hc; cases hc; exact h rfl)
  | .error x, .error y =>
    if h : x = y then .isTrue (by rw [h]) else .isFalse (by intro hc; cases hc; exact h rfl)
  | .ok _, .error _ => .isFalse (by intro hc; cases hc)
  | .error _, .ok _ => .isFalse (by intro hc; cases hc)

theorem minCreated_cons (x a : Nat) (t : List Nat) :
    minCreated x (a :: t) = minCreated (min x a) t := rfl

theorem maxCreated_cons (x a : Nat) (t : List Nat) :
    maxCreated x (a :: t) = maxCreated (max x a) t := rfl

theorem minCreated_le (x : Nat) (xs : List Nat) :
    minCreated x xs ≤ x ∧ ∀ y ∈ xs, minCreated x xs ≤ y := by
  induction xs generalizing x with
  | nil => exact ⟨le_refl x, by intro y hy; cases hy⟩
  | cons a t ih =>
    rw [minCreated_cons]
    refine ⟨le_trans (ih (min x a)).1 (min_le_left x a), ?_⟩
    intro y hy
    rcases List.mem_cons.1 hy with rfl | hy'
    · exact le_trans (ih (min x y)).1 (min_le_right x y)
    · exact (ih (min x a)).2 y hy'

theorem minCreated_mem (x : Nat) (xs : List Nat) :
    minCreated x xs = x ∨ minCreated x xs ∈ xs := by
  induction xs generalizing x with
  | nil => left; rfl
  | cons a t ih =>
    rw [minCreated_cons]
    rcases ih (min x a) with h | h
    · rw [h]
      rcases le_total x a with hxa | hxa
      · left; exact min_eq_left hxa
      · right; rw [min_eq_right hxa]; exact List.mem_cons_self a t
    · right; exact List.mem_cons_of_mem a h

theorem maxCreated_ge (x : Nat) (xs : List Nat) :
    x ≤ maxCreated x xs ∧ ∀ y ∈ xs, y ≤ maxCreated x xs := by
  induction xs generalizing x with
  | nil => exact ⟨le_refl x, by intro y hy; cases hy⟩
  | cons a t ih =>
    rw [maxCreated_cons]
    refine ⟨le_trans (le_max_left x a) (ih (max x a)).1, ?_⟩
    intro y hy
    rcases List.mem_cons.1 hy with rfl | hy'
    · exact le_trans (le_max_right x y) (ih (max x y)).1
    · exact (ih (max x a)).2 y hy'

theorem maxCreated_mem (x : Nat) (xs : List Nat) :
    maxCreated x xs = x ∨ maxCreated x xs ∈ xs := by
  induction xs generalizing x with
  | nil => left; rfl
  | cons a t ih =>
    rw [maxCreated_cons]
    rcases ih (max x a) with h | h
    · rw [h]
      rcases le_total x a with hxa | hxa
      · right; rw [max_eq_right hxa]; exact List.mem_cons_self a t
      · left; exact max_eq_left hxa
    · right; exact List.mem_cons_of_mem a h

theorem findCheckpoint_eq_none_of_noConv (s : Store) (tid ns cid : String)
    (h : hasConvCheckpoint s tid ns = false) : findCheckpoint s tid ns cid = none := by
  unfold hasConvCheckpoint at h
  unfold findCheckpoint
  rw [List.find?_eq_none]
  intro c hc
  have hcf := List.any_eq_false.1 h c hc
  simp_all

theorem agetTupleLatest_eq_none_of_noConv (s : Store) (tid ns : String)
    (h : hasConvCheckpoint s tid ns = false) : agetTupleLatest s tid ns = none := by
  unfold agetTupleLatest
  split
  · rfl
  · split
    · rfl
    · exact findCheckpoint_eq_none_of_noConv s tid ns _ h

/-- C1 (code bug): `time_travel`'s three sub-writes run as three separate
auto-committing `session.run` calls with no enclosing transaction; a
failure injected after the first sub-write (branch creation) leaves a
state different from the pre-call one — a committed, not-yet-activated
branch record exists — instead of exactly the pre-call state. -/
theorem C1_time_travel_interrupted_not_pre_state :
    (time_travel_interrupted S1 "t1" "c0" none "bnew1" 9 1).branches.map Branch.branch_id
      = ["b0", "bnew1"]
    ∧ (time_travel_interrupted S1 "t1" "c0" none "bnew1" 9 1).branches.map Branch.is_active
      = [true, false]
    ∧ S1.branches.map Branch.branch_id = ["b0"]
    ∧ activeBranch (time_travel_interrupted S1 "t1" "c0" none "bnew1" 9 1) "t1" ""
        = activeBranch S1 "t1" ""
    ∧ ((time_travel_interrupted S1 "t1" "c0" none "bnew1" 9 1 == S1) = false) := by decide

/-- C3 (code bug): `list_checkpoints` stamps each summary with the read
time (`datetime.utcnow()`), not the store-assigned `created_at`: at store
S1 whose only checkpoint has `created_at = 5`, listing at read time 99
yields timestamp 99 while id, step, source and message count come from the
stored checkpoint. -/
theorem C3_timestamp_is_read_time :
    list_checkpoints S1 "t1" 99
      = [{ checkpoint_id := "c0", step := 0, source := "input",
           timestamp := 99, message_count := 1 }]
    ∧ S1.checkpoints.map Checkpoint.created_at = [5]
    ∧ (((99 : Nat) == 5) = false) := by decide

/-- C5: `fork_branch` fails with NotFound exactly when the source
checkpoint does not exist; on success the returned Branch satisfies
`fork_point_id = head_checkpoint_id = ` source checkpoint id,
`is_active = false`, and carries the supplied name or the generated
`fork-<short-id>` default. -/
theorem C5_fork_contract (s : Store) (tid cid : String) (reqName : Option String)
    (freshBid : String) (now : Nat) :
    ((fork_branch s tid cid reqName freshBid now).2
        = .error (.notFound "Checkpoint not found") ↔ findCheckpoint s tid "" cid = none)
    ∧ (∀ br, (fork_branch s tid cid reqName freshBid now).2 = .ok br →
        br.fork_point_id = some cid ∧ br.head_checkpoint_id = some cid
        ∧ br.is_active = false ∧ br.name = reqName.getD ("fork-" ++ freshBid.take 8)) := by
  unfold fork_branch agetTupleById
  cases h : findCheckpoint s tid "" cid with
  | none => simp [h]
  | some c =>
    constructor
    · simp [h]
    · intro br hbr
      simp only [h] at hbr
      cases hbr
      exact ⟨rfl, rfl, rfl, rfl⟩

/-- Witness for C5: forking S1 at checkpoint c0 with no name yields the
expected branch record. -/
theorem C5_fork_contract_witness :
    forkedBr.fork_point_id = some "c0" ∧ forkedBr.head_checkpoint_id = some "c0"
    ∧ forkedBr.is_active = false
    ∧ forkedBr.name = (none : Option String).getD ("fork-" ++ ("abcd1234x").take 8) :=
  (C5_fork_contract S1 "t1" "c0" none "abcd1234x" 7).2 forkedBr (by decide)

/-- C7: after a successful fork every pre-existing checkpoint is
retrievable unchanged, every pre-existing branch record (in particular
the previously active one, with its head and flag) is still present
unchanged, and exactly one branch record was added. -/
theorem C7_fork_frame (s : Store) (tid cid : String) (reqName : Option String)
    (freshBid : String) (now : Nat) (br : Branch)
    (hok : (fork_branch s tid cid reqName freshBid now).2 = .ok br) :
    (fork_branch s tid cid reqName freshBid now).1.checkpoints = s.checkpoints
    ∧ (fork_branch s tid cid reqName freshBid now).1.branches = s.branches ++ [br]
    ∧ (∀ t n i, findCheckpoint (fork_branch s tid cid reqName freshBid now).1 t n i
        = findCheckpoint s t n i)
    ∧ (∀ b ∈ s.branches, b ∈ (fork_branch s tid cid reqName freshBid now).1.branches) := by
  unfold fork_branch agetTupleById at hok ⊢
  cases h : findCheckpoint s tid "" cid with
  | none => rw [h] at hok; cases hok
  | some c =>
    rw [h] at hok
    cases hok
    refine ⟨rfl, rfl, fun t n i => rfl, fun b hb => ?_⟩
    exact List.mem_append_left _ hb

/-- Witness for C7 at the concrete store S1. -/
theorem C7_fork_frame_witness :
    (fork_branch S1 "t1" "c0" none "abcd1234x" 7).1.checkpoints = S1.checkpoints
    ∧ (fork_branch S1 "t1" "c0" none "abcd1234x" 7).1.branches = S1.branches ++ [forkedBr]
    ∧ findCheckpoint (fork_branch S1 "t1" "c0" none "abcd1234x" 7).1 "t1" "" "c0"
        = findCheckpoint S1 "t1" "" "c0"
    ∧ mainBr0 ∈ (fork_branch S1 "t1" "c0" none "abcd1234x" 7).1.branches :=
  ⟨(C7_fork_frame S1 "t1" "c0" none "abcd1234x" 7 forkedBr (by decide)).1,
   (C7_fork_frame S1 "t1" "c0" none "abcd1234x" 7 forkedBr (by decide)).2.1,
   (C7_fork_frame S1 "t1" "c0" none "abcd1234x" 7 forkedBr (by decide)).2.2.1 "t1" "" "c0",
   (C7_fork_frame S1 "t1" "c0" none "abcd1234x" 7 forkedBr (by decide)).2.2.2 mainBr0
     (by decide)⟩

/-- C4 counterexample: in store SOther thread t1 has no checkpoint, yet
the no-checkpoint-id read (`get_messages`) succeeds with a defaulted empty
message list instead of failing with NotFound. -/
theorem C4_counterexample_defaulted_empty :
    hasConvCheckpoint SOther "t1" "" = false ∧ get_messages SOther "t1" = [] := by decide

/-- C4 (amended): `get_checkpoint` with an explicit id returns that
checkpoint and fails with NotFound exactly when no such checkpoint exists;
`get_messages` (the no-id read) returns the active head's messages and,
when no checkpoint exists for the thread and namespace, returns an empty
list rather than failing. -/
theorem C4_get_contract (s : Store) (tid cid : String) (now : Nat) :
    ((get_checkpoint s tid cid now = .error (.notFound "Checkpoint not found"))
      ↔ findCheckpoint s tid "" cid = none)
    ∧ (∀ c, findCheckpoint s tid "" cid = some c →
        get_checkpoint s tid cid now
          = .ok { checkpoint_id := cid, step := c.step, source := c.source, timestamp := now,
                  messages := c.messages, parent_checkpoint_id := c.parent_id })
    ∧ (hasConvCheckpoint s tid "" = false → get_messages s tid = [])
    ∧ (∀ c, agetTupleLatest s tid "" = some c → get_messages s tid = c.messages) := by
  refine ⟨?_, ?_, ?_, ?_⟩
  · unfold get_checkpoint agetTupleById
    cases h : findCheckpoint s tid "" cid <;> simp [h]
  · intro c hc
    unfold get_checkpoint agetTupleById
    rw [hc]
  · intro h
    unfold get_messages
    rw [agetTupleLatest_eq_none_of_noConv s tid "" h]
  · intro c hc
    unfold get_messages
    rw [hc]

/-- Witness for C4 at the concrete stores S1 and SOther. -/
theorem C4_get_contract_witness :
    get_checkpoint S1 "t1" "c0" 50
      = .ok { checkpoint_id := "c0", step := cp0.step, source := cp0.source, timestamp := 50,
              messages := cp0.messages, parent_checkpoint_id := cp0.parent_id }
    ∧ get_messages S1 "t1" = cp0.messages
    ∧ get_messages SOther "t1" = [] :=
  ⟨(C4_get_contract S1 "t1" "c0" 50).2.1 cp0 (by decide),
   (C4_get_contract S1 "t1" "c0" 50).2.2.2 cp0 (by decide),
   (C4_get_contract SOther "t1" "c0" 50).2.2.1 (by decide)⟩

/-- C10: `get_thread` is total — it returns a Thread for every thread id
and never fails; with no checkpoints it synthesizes the default with
`message_count = 0` and no `last_message_at`, otherwise `message_count` is
the number of the thread's checkpoints and `created_at` /
`last_message_at` are the minimum and maximum checkpoint `created_at`. -/
theorem C10_get_thread_total (s : Store) (tid : String) (now : Nat) :
    (checkpointsOfThread s tid = [] →
      (get_thread s tid now).message_count = 0
      ∧ (get_thread s tid now).last_message_at = none)
    ∧ (∀ c cs, checkpointsOfThread s tid = c :: cs →
      (get_thread s tid now).message_count = (checkpointsOfThread s tid).length
      ∧ (get_thread s tid now).created_at ∈ (checkpointsOfThread s tid).map Checkpoint.created_at
      ∧ (∀ y ∈ (checkpointsOfThread s tid).map Checkpoint.created_at,
          (get_thread s tid now).created_at ≤ y)
      ∧ (∃ m, (get_thread s tid now).last_message_at = some m
          ∧ m ∈ (checkpointsOfThread s tid).map Checkpoint.created_at
          ∧ ∀ y ∈ (checkpointsOfThread s tid).map Checkpoint.created_at, y ≤ m)) := by
  constructor
  · intro h
    unfold get_thread
    rw [h]
    exact ⟨rfl, rfl⟩
  · intro c cs h
    unfold get_thread
    rw [h]
    refine ⟨rfl, ?_, ?_, ?_⟩
    · show minCreated c.created_at (cs.map Checkpoint.created_at)
        ∈ c.created_at :: cs.map Checkpoint.created_at
      rcases minCreated_mem c.created_at (cs.map Checkpoint.created_at) with hm | hm
      · rw [hm]; exact List.mem_cons_self _ _
      · exact List.mem_cons_of_mem _ hm
    · intro y hy
      show minCreated c.created_at (cs.map Checkpoint.created_at) ≤ y
      have hy' : y ∈ c.created_at :: cs.map Checkpoint.created_at := hy
      rcases List.mem_cons.1 hy' with rfl | hy2
      · exact (minCreated_le c.created_at (cs.map Checkpoint.created_at)).1
      · exact (minCreated_le c.created_at (cs.map Checkpoint.created_at)).2 y hy2
    · refine ⟨maxCreated c.created_at (cs.map Checkpoint.created_at), rfl, ?_, ?_⟩
      · show maxCreated c.created_at (cs.map Checkpoint.created_at)
          ∈ c.created_at :: cs.map Checkpoint.created_at
        rcases maxCreated_mem c.created_at (cs.map Checkpoint.created_at) with hm | hm
        · rw [hm]; exact List.mem_cons_self _ _
        · exact List.mem_cons_of_mem _ hm
      · intro y hy
        have hy' : y ∈ c.created_at :: cs.map Checkpoint.created_at := hy
        rcases List.mem_cons.1 hy' with rfl | hy2
        · exact (maxCreated_ge c.created_at (cs.map Checkpoint.created_at)).1
        · exact (maxCreated_ge c.created_at (cs.map Checkpoint.created_at)).2 y hy2

/-- Witness for C10 at the concrete stores S0 (two checkpoints) and SOther
(thread with no checkpoints). -/
theorem C10_get_thread_total_witness :
    (get_thread S0 "t1" 50).message_count = (checkpointsOfThread S0 "t1").length
    ∧ (get_thread S0 "t1" 50).created_at
        ∈ (checkpointsOfThread S0 "t1").map Checkpoint.created_at
    ∧ (get_thread S0 "t1" 50).created_at ≤ 6
    ∧ (get_thread SOther "t1" 7).message_count = 0
    ∧ (get_thread SOther "t1" 7).last_message_at = none :=
  ⟨((C10_get_thread_total S0 "t1" 50).2 cp0 [cp1] (by decide)).1,
   ((C10_get_thread_total S0 "t1" 50).2 cp0 [cp1] (by decide)).2.1,
   ((C10_get_thread_total S0 "t1" 50).2 cp0 [cp1] (by decide)).2.2.1 6 (by decide),
   ((C10_get_thread_total SOther "t1" 7).1 (by decide)).1,
   ((C10_get_thread_total SOther "t1" 7).1 (by decide)).2⟩

theorem Store.eq_of (a b : Store) (h1 : a.checkpoints = b.checkpoints)
    (h2 : a.branches = b.branches) : a = b := by
  cases a; cases b; cases h1; cases h2; rfl

theorem map_id_of_mem {α : Type} {f : α → α} :
    ∀ {l : List α}, (∀ a ∈ l, f a = a) → l.map f = l
  | [], _ => rfl
  | a :: t, h => by
    rw [List.map_cons, h a (List.mem_cons_self a t),
        map_id_of_mem (fun b hb => h b (List.mem_cons_of_mem a hb))]

theorem branchExists_false_of_fresh (s : Store) (tid ns freshBid : String)
    (hfresh : ∀ b ∈ s.branches, b.branch_id ≠ freshBid) :
    branchExists s tid ns freshBid = false := by
  unfold branchExists
  rw [List.any_eq_false]
  intro b hb
  simp [hfresh b hb]

theorem branchExists_create (s : Store) (tid ns bid bname fpid : String) (now : Nat) :
    branchExists (cypherCreateBranch s tid ns bid bname fpid now) tid ns bid = true := by
  unfold branchExists cypherCreateBranch
  rw [List.any_eq_true]
  refine ⟨newBranchRec tid ns bid bname fpid now, List.mem_append_right _ ?_, ?_⟩
  · exact List.mem_singleton_self _
  · simp [newBranchRec, Branch.inConv]

theorem setActive_not_exists (s : Store) (tid ns bid : String)
    (h : branchExists s tid ns bid = false) :
    cypherSetActiveBranch s tid ns bid = (s, false) := by
  unfold cypherSetActiveBranch
  simp [h]

theorem setActive_exists (s : Store) (tid ns bid : String)
    (h : branchExists s tid ns bid = true) :
    cypherSetActiveBranch s tid ns bid
      = ({ s with branches := s.branches.map (setActiveFlag tid ns bid) }, true) := by
  unfold cypherSetActiveBranch
  simp [h]

theorem switch_branch_store_not_exists (s : Store) (tid bid : String)
    (h : branchExists s tid "" bid = false) :
    (switch_branch s tid bid).1 = s := by
  unfold switch_branch
  rw [setActive_not_exists s tid "" bid h]
  rfl

theorem switch_branch_store_exists (s : Store) (tid bid : String)
    (h : branchExists s tid "" bid = true) :
    (switch_branch s tid bid).1
      = { s with branches := s.branches.map (setActiveFlag tid "" bid) } := by
  unfold switch_branch
  rw [setActive_exists s tid "" bid h]
  rfl

theorem Branch.update_head_self (b : Branch) (cid : String)
    (h : b.head_checkpoint_id = some cid) :
    { b with head_checkpoint_id := some cid } = b := by
  cases b
  simp_all

theorem setHeadPtr_eq_self (tid ns cid : String) (b : Branch)
    (h : b.is_active = false ∨ b.head_checkpoint_id = some cid) :
    setHeadPtr tid ns cid b = b := by
  unfold setHeadPtr
  rcases h with h | h
  · simp [h]
  · by_cases hc : (b.inConv tid ns && b.is_active) = true
    · simp only [hc, if_true]
      exact Branch.update_head_self b cid h
    · simp [hc]

theorem updateHead_after_create_setActive (s : Store) (tid cid bname freshBid : String)
    (now : Nat) (hfresh : ∀ b ∈ s.branches, b.branch_id ≠ freshBid) :
    cypherUpdateBranchHead
        { cypherCreateBranch s tid "" freshBid bname cid now with
          branches := (cypherCreateBranch s tid "" freshBid bname cid now).branches.map
            (setActiveFlag tid "" freshBid) }
        tid "" cid
      = { cypherCreateBranch s tid "" freshBid bname cid now with
          branches := (cypherCreateBranch s tid "" freshBid bname cid now).branches.map
            (setActiveFlag tid "" freshBid) } := by
  unfold cypherUpdateBranchHead
  refine Store.eq_of _ _ rfl ?_
  refine map_id_of_mem ?_
  intro b' hb'
  rcases List.mem_map.1 hb' with ⟨b, hbmem, rfl⟩
  unfold cypherCreateBranch at hbmem
  rcases List.mem_append.1 hbmem with hbs | hnew
  · by_cases hc : b.inConv tid "" = true
    · have hact : (setActiveFlag tid "" freshBid b).is_active = false := by
        simp [setActiveFlag, hc, hfresh b hbs]
      exact setHeadPtr_eq_self tid "" cid _ (Or.inl hact)
    · rw [Bool.not_eq_true] at hc
      have heq : setActiveFlag tid "" freshBid b = b := by simp [setActiveFlag, hc]
      rw [heq]
      unfold setHeadPtr
      simp [hc]
  · have hb : b = newBranchRec tid "" freshBid bname cid now := List.mem_singleton.1 hnew
    subst hb
    have hh : (setActiveFlag tid "" freshBid (newBranchRec tid "" freshBid bname cid now)).head_checkpoint_id
        = some cid := by
      simp [setActiveFlag, newBranchRec, Branch.inConv]
    exact setHeadPtr_eq_self tid "" cid _ (Or.inr hh)

/-- C2: with a fresh generated branch id, the store state time_travel
leaves behind is exactly the state of fork_branch followed immediately by
switch_branch to the newly created branch — identical branch set, active
flags and heads (hence identical current head) — in the failure case as
well as the success case. -/
theorem C2_time_travel_eq_fork_then_switch (s : Store) (tid cid : String)
    (reqName : Option String) (freshBid : String) (now : Nat)
    (hfresh : ∀ b ∈ s.branches, b.branch_id ≠ freshBid) :
    (time_travel s tid cid reqName freshBid now).1
      = (switch_branch (fork_branch s tid cid reqName freshBid now).1 tid freshBid).1 := by
  unfold time_travel fork_branch
  cases h : agetTupleById s tid "" cid with
  | none =>
    show s = (switch_branch s tid freshBid).1
    rw [switch_branch_store_not_exists s tid freshBid
      (branchExists_false_of_fresh s tid "" freshBid hfresh)]
  | some c =>
    show cypherUpdateBranchHead
        (cypherSetActiveBranch (cypherCreateBranch s tid ""
           freshBid (reqName.getD ("fork-" ++ freshBid.take 8)) cid now) tid "" freshBid).1
        tid "" cid
      = (switch_branch (cypherCreateBranch s tid ""
           freshBid (reqName.getD ("fork-" ++ freshBid.take 8)) cid now) tid freshBid).1
    rw [switch_branch_store_exists _ tid freshBid
        (branchExists_create s tid "" freshBid _ cid now),
      setActive_exists _ tid "" freshBid (branchExists_create s tid "" freshBid _ cid now)]
    exact updateHead_after_create_setActive s tid cid _ freshBid now hfresh

/-- Witness for C2 at the concrete store S1 with the fresh id bnew1. -/
theorem C2_time_travel_eq_fork_then_switch_witness :
    (time_travel S1 "t1" "c0" none "bnew1" 9).1
      = (switch_branch (fork_branch S1 "t1" "c0" none "bnew1" 9).1 "t1" "bnew1").1 :=
  C2_time_travel_eq_fork_then_switch S1 "t1" "c0" none "bnew1" 9 (by decide)

theorem find_active_after_set (tid ns bid : String) :
    ∀ (l : List Branch), (l.map Branch.branch_id).Nodup →
      ∀ b ∈ l, b.inConv tid ns = true → b.branch_id = bid →
        (l.map (setActiveFlag tid ns bid)).find? (fun x => x.inConv tid ns && x.is_active)
          = some { b with is_active := true } := by
  intro l
  induction l with
  | nil => intro _ b hb; cases hb
  | cons a t ih =>
    intro hnodup b hb hconv hid
    rw [List.map_cons] at hnodup
    have hna := (List.nodup_cons.1 hnodup).1
    have hnt := (List.nodup_cons.1 hnodup).2
    rw [List.map_cons]
    by_cases hpa :
        ((setActiveFlag tid ns bid a).inConv tid ns && (setActiveFlag tid ns bid a).is_active)
          = true
    · rw [@List.find?_cons_of_pos Branch (fun x => x.inConv tid ns && x.is_active)
        (setActiveFlag tid ns bid a) (List.map (setActiveFlag tid ns bid) t) hpa]
      by_cases hac : a.inConv tid ns = true
      · have haid : (a.branch_id == bid) = true := by
          have h1 : setActiveFlag tid ns bid a = { a with is_active := a.branch_id == bid } := by
            simp [setActiveFlag, hac]
          rw [h1, Bool.and_eq_true] at hpa
          exact hpa.2
        rcases List.mem_cons.1 hb with rfl | hbt
        · simp [setActiveFlag, hac, haid]
        · exfalso
          apply hna
          rw [beq_iff_eq] at haid
          rw [haid, ← hid]
          exact List.mem_map_of_mem Branch.branch_id hbt
      · exfalso
        rw [Bool.not_eq_true] at hac
        have h1 : setActiveFlag tid ns bid a = a := by simp [setActiveFlag, hac]
        rw [h1, Bool.and_eq_true] at hpa
        rw [hpa.1] at hac
        cases hac
    · rw [@List.find?_cons_of_neg Branch (fun x => x.inConv tid ns && x.is_active)
        (setActiveFlag tid ns bid a) (List.map (setActiveFlag tid ns bid) t) hpa]
      rcases List.mem_cons.1 hb with rfl | hbt
      · exfalso
        apply hpa
        have hconv' := hconv
        simp [Branch.inConv] at hconv'
        simp [setActiveFlag, hconv, Branch.inConv, hconv', hid]
      · exact ih hnt b hbt hconv hid

theorem agetTupleLatest_eq (s : Store) (tid ns : String) (b : Branch)
    (hab : activeBranch s tid ns = some b) (hd : String)
    (hh : b.head_checkpoint_id = some hd) :
    agetTupleLatest s tid ns = findCheckpoint s tid ns hd := by
  unfold agetTupleLatest
  rw [hab]
  show (match b.head_checkpoint_id with
        | none => none
        | some h => findCheckpoint s tid ns h) = findCheckpoint s tid ns hd
  rw [hh]

/-- C6: switch_branch fails with NotFound exactly when the branch does not
exist in the conversation; on success (with distinct branch ids) the
requested branch becomes the unique active one, the current head is that
branch's head immediately, and the returned messages are read from the new
active branch's head checkpoint. -/
theorem C6_switch_contract (s : Store) (tid bid : String) :
    ((switch_branch s tid bid).2 = .error (.notFound "Branch not found")
      ↔ branchExists s tid "" bid = false)
    ∧ ((s.branches.map Branch.branch_id).Nodup →
      ∀ b ∈ s.branches, b.inConv tid "" = true → b.branch_id = bid →
        activeBranch (switch_branch s tid bid).1 tid "" = some { b with is_active := true }
        ∧ currentHead (switch_branch s tid bid).1 tid "" = b.head_checkpoint_id
        ∧ ∀ hd cp, b.head_checkpoint_id = some hd → findCheckpoint s tid "" hd = some cp →
            (switch_branch s tid bid).2
              = .ok { status := "switched", thread_id := tid, branch_id := bid,
                      messages := cp.messages }) := by
  constructor
  · cases hex : branchExists s tid "" bid
    · unfold switch_branch
      rw [setActive_not_exists s tid "" bid hex]
      simp
    · unfold switch_branch
      rw [setActive_exists s tid "" bid hex]
      simp
  · intro hnodup b hb hconv hid
    have hex : branchExists s tid "" bid = true := by
      unfold branchExists
      rw [List.any_eq_true]
      exact ⟨b, hb, by simp [hconv, hid]⟩
    have hstore := switch_branch_store_exists s tid bid hex
    have hact : activeBranch (switch_branch s tid bid).1 tid ""
        = some { b with is_active := true } := by
      rw [hstore]
      unfold activeBranch
      exact find_active_after_set tid "" bid s.branches hnodup b hb hconv hid
    refine ⟨hact, ?_, ?_⟩
    · unfold currentHead
      rw [hact]
      rfl
    · intro hd cp hh hcp
      have hact2 : activeBranch
          { s with branches := s.branches.map (setActiveFlag tid "" bid) } tid ""
          = some { b with is_active := true } := by
        rw [← hstore]; exact hact
      have hfind : findCheckpoint
          { s with branches := s.branches.map (setActiveFlag tid "" bid) } tid "" hd
          = findCheckpoint s tid "" hd := rfl
      have hlatest : agetTupleLatest
          { s with branches := s.branches.map (setActiveFlag tid "" bid) } tid "" = some cp := by
        rw [agetTupleLatest_eq _ tid "" { b with is_active := true } hact2 hd hh, hfind, hcp]
      unfold switch_branch
      rw [setActive_exists s tid "" bid hex]
      simp [hlatest]

/-- Witness for C6 at the concrete store S0Fork (S0 plus an inactive
branch alt1 forked at c0). -/
theorem C6_switch_contract_witness :
    activeBranch (switch_branch S0Fork "t1" "alt1").1 "t1" ""
      = some { altBr with is_active := true }
    ∧ currentHead (switch_branch S0Fork "t1" "alt1").1 "t1" "" = altBr.head_checkpoint_id
    ∧ (switch_branch S0Fork "t1" "alt1").2
        = .ok { status := "switched", thread_id := "t1", branch_id := "alt1",
                messages := cp0.messages } :=
  ⟨((C6_switch_contract S0Fork "t1" "alt1").2 (by decide) altBr (by decide) (by decide)
      (by decide)).1,
   ((C6_switch_contract S0Fork "t1" "alt1").2 (by decide) altBr (by decide) (by decide)
      (by decide)).2.1,
   ((C6_switch_contract S0Fork "t1" "alt1").2 (by decide) altBr (by decide) (by decide)
      (by decide)).2.2 "c0" cp0 (by decide) (by decide)⟩

/-- C9: the full tree has one node per conversation checkpoint — carrying
its (checkpoint_id, parent_id) pair and the annotation of the branch (if
any) whose fork point is that checkpoint — together with all of the
conversation's branches, regardless of which branch is active. -/
theorem C9_full_tree (s : Store) (tid : String) :
    ((get_checkpoint_tree s tid).nodes.length
        = (s.checkpoints.filter fun c => c.inConv tid "").length)
    ∧ (∀ c ∈ s.checkpoints, c.inConv tid "" = true →
        ({ checkpoint_id := c.checkpoint_id, parent_id := c.parent_id,
           branch_id := (branchForkingAt s tid "" c.checkpoint_id).map Branch.branch_id,
           branch_name := (branchForkingAt s tid "" c.checkpoint_id).map Branch.name }
          : CheckpointTreeNode) ∈ (get_checkpoint_tree s tid).nodes)
    ∧ (∀ n ∈ (get_checkpoint_tree s tid).nodes, ∃ c ∈ s.checkpoints,
        c.inConv tid "" = true ∧ n.checkpoint_id = c.checkpoint_id
        ∧ n.parent_id = c.parent_id
        ∧ n.branch_id = (branchForkingAt s tid "" c.checkpoint_id).map Branch.branch_id)
    ∧ (get_checkpoint_tree s tid).branches = convBranches s tid "" := by
  refine ⟨?_, ?_, ?_, rfl⟩
  · unfold get_checkpoint_tree cypherGetCheckpointTree
    rw [List.length_map]
  · intro c hc hconv
    unfold get_checkpoint_tree cypherGetCheckpointTree
    apply List.mem_map_of_mem
    rw [List.mem_filter]
    exact ⟨hc, hconv⟩
  · intro n hn
    unfold get_checkpoint_tree cypherGetCheckpointTree at hn
    rcases List.mem_map.1 hn with ⟨c, hcmem, rfl⟩
    rcases List.mem_filter.1 hcmem with ⟨hcs, hconv⟩
    exact ⟨c, hcs, hconv, rfl, rfl, rfl⟩

/-- Witness for C9 at the concrete store S0Fork: the node for checkpoint
c0 carries its parent and the alt1 fork annotation. -/
theorem C9_full_tree_witness :
    ({ checkpoint_id := cp0.checkpoint_id, parent_id := cp0.parent_id,
       branch_id := (branchForkingAt S0Fork "t1" "" cp0.checkpoint_id).map Branch.branch_id,
       branch_name := (branchForkingAt S0Fork "t1" "" cp0.checkpoint_id).map Branch.name }
      : CheckpointTreeNode) ∈ (get_checkpoint_tree S0Fork "t1").nodes :=
  (C9_full_tree S0Fork "t1").2.1 cp0 (by decide) (by decide)

theorem inConv_ne_false (b : Branch) (tq tid : String) (h : b.inConv tid "" = true)
    (hne : tq ≠ tid) : b.inConv tq "" = false := by
  unfold Branch.inConv at h ⊢
  rw [Bool.and_eq_true, beq_iff_eq, beq_iff_eq] at h
  have h1 : (b.thread_id == tq) = false := by
    rw [beq_eq_false_iff_ne, h.1]
    exact fun hh => hne hh.symm
  rw [h1, Bool.false_and]

theorem setActiveFlag_inConv (tid ns bid : String) (x : Branch) (t n : String) :
    (setActiveFlag tid ns bid x).inConv t n = x.inConv t n := by
  unfold setActiveFlag
  by_cases hc : x.inConv tid ns = true
  · rw [if_pos hc]; rfl
  · rw [if_neg hc]

theorem setHeadPtr_inConv (tid ns cid : String) (x : Branch) (t n : String) :
    (setHeadPtr tid ns cid x).inConv t n = x.inConv t n := by
  unfold setHeadPtr
  by_cases hc : (x.inConv tid ns && x.is_active) = true
  · rw [if_pos hc]; rfl
  · rw [if_neg hc]

theorem setHeadPtr_active (tid ns cid : String) (x : Branch) :
    (setHeadPtr tid ns cid x).is_active = x.is_active := by
  unfold setHeadPtr
  by_cases hc : (x.inConv tid ns && x.is_active) = true
  · rw [if_pos hc]
  · rw [if_neg hc]

theorem setActiveFlag_active_iff (tid ns bid : String) (a : Branch) :
    (((setActiveFlag tid ns bid a).inConv tid ns && (setActiveFlag tid ns bid a).is_active)
       = true)
      ↔ (a.inConv tid ns = true ∧ a.branch_id = bid) := by
  unfold setActiveFlag
  by_cases hac : a.inConv tid ns = true
  · rw [if_pos hac]
    show (({ a with is_active := a.branch_id == bid }).inConv tid ns
      && (a.branch_id == bid)) = true ↔ _
    have : ({ a with is_active := a.branch_id == bid } : Branch).inConv tid ns
        = a.inConv tid ns := rfl
    rw [this, hac, Bool.true_and, beq_iff_eq]
    simp [hac]
  · rw [if_neg hac]
    rw [Bool.not_eq_true] at hac
    simp [hac]

theorem countP_active_after_set_zero (tid ns bid : String) (t : List Branch)
    (hnb : ∀ x ∈ t, x.branch_id ≠ bid) :
    (t.map (setActiveFlag tid ns bid)).countP (fun x => x.inConv tid ns && x.is_active)
      = 0 := by
  rw [List.countP_eq_zero]
  intro y hy
  rcases List.mem_map.1 hy with ⟨x, hx, rfl⟩
  intro hcon
  rcases (setActiveFlag_active_iff tid ns bid x).1 hcon with ⟨h1, h2⟩
  exact hnb x hx h2

theorem countP_active_after_set_one (tid ns bid : String) :
    ∀ (l : List Branch), (l.map Branch.branch_id).Nodup →
      ∀ b ∈ l, b.inConv tid ns = true → b.branch_id = bid →
        (l.map (setActiveFlag tid ns bid)).countP (fun x => x.inConv tid ns && x.is_active)
          = 1 := by
  intro l
  induction l with
  | nil => intro _ b hb; cases hb
  | cons a t ih =>
    intro hnodup b hb hconv hid
    rw [List.map_cons] at hnodup
    have hna := (List.nodup_cons.1 hnodup).1
    have hnt := (List.nodup_cons.1 hnodup).2
    rw [List.map_cons, List.countP_cons]
    by_cases hpa : (a.inConv tid ns = true ∧ a.branch_id = bid)
    · have hptrue : ((setActiveFlag tid ns bid a).inConv tid ns
          && (setActiveFlag tid ns bid a).is_active) = true :=
        (setActiveFlag_active_iff tid ns bid a).2 hpa
      have hnb : ∀ x ∈ t, x.branch_id ≠ bid := by
        intro x hx hxe
        exact hna (by rw [hpa.2, ← hxe]; exact List.mem_map_of_mem Branch.branch_id hx)
      rw [countP_active_after_set_zero tid ns bid t hnb, if_pos hptrue]
    · have hpfalse : ¬(((setActiveFlag tid ns bid a).inConv tid ns
          && (setActiveFlag tid ns bid a).is_active) = true) := by
        intro hcon
        exact hpa ((setActiveFlag_active_iff tid ns bid a).1 hcon)
      rw [if_neg hpfalse]
      rcases List.mem_cons.1 hb with rfl | hbt
      · exact absurd ⟨hconv, hid⟩ hpa
      · rw [ih hnt b hbt hconv hid]

theorem countP_inConv_map_setActive (l : List Branch) (tid ns bid t n : String) :
    (l.map (setActiveFlag tid ns bid)).countP (fun b => b.inConv t n)
      = l.countP (fun b => b.inConv t n) := by
  rw [List.countP_map]
  apply List.countP_congr
  intro x hx
  show ((setActiveFlag tid ns bid x).inConv t n = true) ↔ (x.inConv t n = true)
  rw [setActiveFlag_inConv]

theorem countP_active_map_setActive_ne (l : List Branch) (tid bid tq : String)
    (htq : tq ≠ tid) :
    (l.map (setActiveFlag tid "" bid)).countP (fun b => b.inConv tq "" && b.is_active)
      = l.countP (fun b => b.inConv tq "" && b.is_active) := by
  rw [List.countP_map]
  apply List.countP_congr
  intro x hx
  show (((setActiveFlag tid "" bid x).inConv tq "" && (setActiveFlag tid "" bid x).is_active)
      = true)
    ↔ ((x.inConv tq "" && x.is_active) = true)
  rw [setActiveFlag_inConv]
  by_cases hc : x.inConv tid "" = true
  · have hfq : x.inConv tq "" = false := inConv_ne_false x tq tid hc htq
    simp [hfq]
  · rw [Bool.not_eq_true] at hc
    have heq : setActiveFlag tid "" bid x = x := by simp [setActiveFlag, hc]
    rw [heq]

theorem countP_inConv_map_setHead (l : List Branch) (tid ns cid t n : String) :
    (l.map (setHeadPtr tid ns cid)).countP (fun b => b.inConv t n)
      = l.countP (fun b => b.inConv t n) := by
  rw [List.countP_map]
  apply List.countP_congr
  intro x hx
  show ((setHeadPtr tid ns cid x).inConv t n = true) ↔ (x.inConv t n = true)
  rw [setHeadPtr_inConv]

theorem countP_active_map_setHead (l : List Branch) (tid ns cid t n : String) :
    (l.map (setHeadPtr tid ns cid)).countP (fun b => b.inConv t n && b.is_active)
      = l.countP (fun b => b.inConv t n && b.is_active) := by
  rw [List.countP_map]
  apply List.countP_congr
  intro x hx
  show (((setHeadPtr tid ns cid x).inConv t n && (setHeadPtr tid ns cid x).is_active) = true)
    ↔ ((x.inConv t n && x.is_active) = true)
  rw [setHeadPtr_inConv, setHeadPtr_active]

theorem nodup_append_fresh (l : List Branch) (nb : Branch)
    (hnodup : (l.map Branch.branch_id).Nodup)
    (hfresh : ∀ b ∈ l, b.branch_id ≠ nb.branch_id) :
    ((l ++ [nb]).map Branch.branch_id).Nodup := by
  rw [List.map_append, List.nodup_append]
  refine ⟨hnodup, List.nodup_singleton _, ?_⟩
  intro x hx1 hx2
  rcases List.mem_map.1 hx1 with ⟨b, hb, rfl⟩
  rw [List.map_singleton, List.mem_singleton] at hx2
  exact hfresh b hb hx2

theorem hasConvCheckpoint_of_find (s : Store) (tid ns cid : String) (c : Checkpoint)
    (h : findCheckpoint s tid ns cid = some c) : hasConvCheckpoint s tid ns = true := by
  unfold findCheckpoint at h
  unfold hasConvCheckpoint
  rw [List.any_eq_true]
  have hmem := List.mem_of_find?_eq_some h
  have hp := List.find?_some h
  rw [Bool.and_eq_true] at hp
  exact ⟨c, hmem, hp.1⟩

theorem invariantAt_createBranch (s : Store) (tid bid bname cid : String) (now : Nat)
    (tq : String) (hq : invariantAt s tq "") (hck : hasConvCheckpoint s tid "" = true)
    (ht : invariantAt s tid "") :
    invariantAt (cypherCreateBranch s tid "" bid bname cid now) tq "" := by
  intro hante
  have hac : activeCount (cypherCreateBranch s tid "" bid bname cid now) tq ""
      = activeCount s tq "" := by
    show (s.branches ++ [newBranchRec tid "" bid bname cid now]).countP
        (fun b => b.inConv tq "" && b.is_active)
      = s.branches.countP (fun b => b.inConv tq "" && b.is_active)
    rw [List.countP_append]
    have hz : List.countP (fun b => b.inConv tq "" && b.is_active)
        [newBranchRec tid "" bid bname cid now] = 0 := by
      simp [newBranchRec]
    rw [hz, Nat.add_zero]
  rw [hac]
  by_cases htq : tq = tid
  · subst htq
    exact ht (Or.inr hck)
  · apply hq
    rcases hante with hbc | hck2
    · left
      have hbq : branchCount (cypherCreateBranch s tid "" bid bname cid now) tq ""
          = branchCount s tq "" := by
        show (s.branches ++ [newBranchRec tid "" bid bname cid now]).countP
            (fun b => b.inConv tq "")
          = s.branches.countP (fun b => b.inConv tq "")
        rw [List.countP_append]
        have hne : (tid == tq) = false := by
          rw [beq_eq_false_iff_ne]
          exact fun hh => htq hh.symm
        have hz : List.countP (fun b => b.inConv tq "")
            [newBranchRec tid "" bid bname cid now] = 0 := by
          simp [newBranchRec, Branch.inConv, hne]
        rw [hz, Nat.add_zero]
      rw [hbq] at hbc
      exact hbc
    · right
      exact hck2

theorem invariantAt_setActive (s : Store) (tid bid tq : String)
    (hnodup : (s.branches.map Branch.branch_id).Nodup)
    (hq : invariantAt s tq "") :
    invariantAt (cypherSetActiveBranch s tid "" bid).1 tq "" := by
  cases hex : branchExists s tid "" bid with
  | false =>
    rw [setActive_not_exists s tid "" bid hex]
    exact hq
  | true =>
    rw [setActive_exists s tid "" bid hex]
    by_cases htq : tq = tid
    · subst htq
      intro hante
      obtain ⟨b, hb, hpb⟩ := List.any_eq_true.1 hex
      rw [Bool.and_eq_true] at hpb
      show (s.branches.map (setActiveFlag tq "" bid)).countP
          (fun x => x.inConv tq "" && x.is_active) = 1
      exact countP_active_after_set_one tq "" bid s.branches hnodup b hb hpb.1
        (beq_iff_eq.1 hpb.2)
    · intro hante
      have hac : activeCount
          { s with branches := s.branches.map (setActiveFlag tid "" bid) } tq ""
          = activeCount s tq "" := by
        show (s.branches.map (setActiveFlag tid "" bid)).countP
            (fun x => x.inConv tq "" && x.is_active)
          = s.branches.countP (fun x => x.inConv tq "" && x.is_active)
        exact countP_active_map_setActive_ne s.branches tid bid tq htq
      rw [hac]
      apply hq
      rcases hante with hbc | hck
      · left
        have hbq : branchCount
            { s with branches := s.branches.map (setActiveFlag tid "" bid) } tq ""
            = branchCount s tq "" := by
          show (s.branches.map (setActiveFlag tid "" bid)).countP (fun x => x.inConv tq "")
            = s.branches.countP (fun x => x.inConv tq "")
          exact countP_inConv_map_setActive s.branches tid "" bid tq ""
        rw [hbq] at hbc
        exact hbc
      · right
        exact hck

theorem invariantAt_updateHead (s : Store) (tid cid tq : String)
    (hq : invariantAt s tq "") :
    invariantAt (cypherUpdateBranchHead s tid "" cid) tq "" := by
  intro hante
  have hac : activeCount (cypherUpdateBranchHead s tid "" cid) tq ""
      = activeCount s tq "" := by
    show (s.branches.map (setHeadPtr tid "" cid)).countP
        (fun b => b.inConv tq "" && b.is_active)
      = s.branches.countP (fun b => b.inConv tq "" && b.is_active)
    exact countP_active_map_setHead s.branches tid "" cid tq ""
  rw [hac]
  apply hq
  rcases hante with hbc | hck
  · left
    have hbq : branchCount (cypherUpdateBranchHead s tid "" cid) tq ""
        = branchCount s tq "" := by
      show (s.branches.map (setHeadPtr tid "" cid)).countP (fun b => b.inConv tq "")
        = s.branches.countP (fun b => b.inConv tq "")
      exact countP_inConv_map_setHead s.branches tid "" cid tq ""
    rw [hbq] at hbc
    exact hbc
  · right
    exact hck

theorem invariantAt_append (s : Store) (tid ncid : String) (stp : Nat) (src : String)
    (msgs : List String) (now : Nat) (rootBid tq : String)
    (hq : invariantAt s tq "") (ht : invariantAt s tid "") :
    invariantAt (appendCheckpoint s tid "" ncid stp src msgs now rootBid) tq "" := by
  unfold appendCheckpoint
  cases hab : activeBranch s tid "" with
  | some b =>
    intro hante
    have hac : activeCount
        ({ checkpoints := s.checkpoints
            ++ [newCheckpointRec tid "" ncid stp src msgs now b.head_checkpoint_id],
           branches := s.branches.map (setHeadPtr tid "" ncid) } : Store) tq ""
        = activeCount s tq "" := by
      show (s.branches.map (setHeadPtr tid "" ncid)).countP
          (fun x => x.inConv tq "" && x.is_active)
        = s.branches.countP (fun x => x.inConv tq "" && x.is_active)
      exact countP_active_map_setHead s.branches tid "" ncid tq ""
    rw [hac]
    by_cases htq : tq = tid
    · subst htq
      apply ht
      left
      have hbmem := List.mem_of_find?_eq_some hab
      have hbp := List.find?_some hab
      rw [Bool.and_eq_true] at hbp
      intro h0
      rw [show branchCount s tq "" = s.branches.countP (fun x => x.inConv tq "") from rfl,
        List.countP_eq_zero] at h0
      exact h0 b hbmem hbp.1
    · apply hq
      rcases hante with hbc | hck
      · left
        have hbq : branchCount
            ({ checkpoints := s.checkpoints
                ++ [newCheckpointRec tid "" ncid stp src msgs now b.head_checkpoint_id],
               branches := s.branches.map (setHeadPtr tid "" ncid) } : Store) tq ""
            = branchCount s tq "" := by
          show (s.branches.map (setHeadPtr tid "" ncid)).countP (fun x => x.inConv tq "")
            = s.branches.countP (fun x => x.inConv tq "")
          exact countP_inConv_map_setHead s.branches tid "" ncid tq ""
        rw [hbq] at hbc
        exact hbc
      · right
        have hne : (tid == tq) = false := by
          rw [beq_eq_false_iff_ne]
          exact fun hh => htq hh.symm
        have h3 : hasConvCheckpoint
            ({ checkpoints := s.checkpoints
                ++ [newCheckpointRec tid "" ncid stp src msgs now b.head_checkpoint_id],
               branches := s.branches.map (setHeadPtr tid "" ncid) } : Store) tq ""
            = hasConvCheckpoint s tq "" := by
          show (s.checkpoints
              ++ [newCheckpointRec tid "" ncid stp src msgs now b.head_checkpoint_id]).any
            (fun c => c.inConv tq "") = s.checkpoints.any (fun c => c.inConv tq "")
          rw [List.any_append]
          have hz : ([newCheckpointRec tid "" ncid stp src msgs now
              b.head_checkpoint_id].any (fun c => c.inConv tq "")) = false := by
            simp [newCheckpointRec, Checkpoint.inConv, hne]
          rw [hz, Bool.or_false]
        rw [h3] at hck
        exact hck
  | none =>
    intro hante
    by_cases htq : tq = tid
    · subst htq
      have h0 : activeCount s tq "" = 0 := by
        rw [show activeCount s tq ""
            = s.branches.countP (fun x => x.inConv tq "" && x.is_active) from rfl,
          List.countP_eq_zero]
        intro x hx
        exact List.find?_eq_none.1 hab x hx
      show (s.branches ++ [rootBranchRec tq "" rootBid ncid now]).countP
          (fun x => x.inConv tq "" && x.is_active) = 1
      rw [List.countP_append,
        show s.branches.countP (fun x => x.inConv tq "" && x.is_active) = 0 from h0]
      simp [rootBranchRec, Branch.inConv]
    · have hne : (tid == tq) = false := by
        rw [beq_eq_false_iff_ne]
        exact fun hh => htq hh.symm
      have hac : activeCount
          ({ checkpoints := s.checkpoints ++ [newCheckpointRec tid "" ncid stp src msgs now none],
             branches := s.branches ++ [rootBranchRec tid "" rootBid ncid now] } : Store) tq ""
          = activeCount s tq "" := by
        show (s.branches ++ [rootBranchRec tid "" rootBid ncid now]).countP
            (fun x => x.inConv tq "" && x.is_active)
          = s.branches.countP (fun x => x.inConv tq "" && x.is_active)
        rw [List.countP_append]
        have hz : List.countP (fun x => x.inConv tq "" && x.is_active)
            [rootBranchRec tid "" rootBid ncid now] = 0 := by
          simp [rootBranchRec, Branch.inConv, hne]
        rw [hz, Nat.add_zero]
      rw [hac]
      apply hq
      rcases hante with hbc | hck
      · left
        have hbq : branchCount
            ({ checkpoints := s.checkpoints
                ++ [newCheckpointRec tid "" ncid stp src msgs now none],
               branches := s.branches ++ [rootBranchRec tid "" rootBid ncid now] } : Store)
              tq ""
            = branchCount s tq "" := by
          show (s.branches ++ [rootBranchRec tid "" rootBid ncid now]).countP
              (fun x => x.inConv tq "")
            = s.branches.countP (fun x => x.inConv tq "")
          rw [List.countP_append]
          have hz : List.countP (fun x => x.inConv tq "")
              [rootBranchRec tid "" rootBid ncid now] = 0 := by
            simp [rootBranchRec, Branch.inConv, hne]
          rw [hz, Nat.add_zero]
        rw [hbq] at hbc
        exact hbc
      · right
        have h3 : hasConvCheckpoint
            ({ checkpoints := s.checkpoints
                ++ [newCheckpointRec tid "" ncid stp src msgs now none],
               branches := s.branches ++ [rootBranchRec tid "" rootBid ncid now] } : Store)
              tq ""
            = hasConvCheckpoint s tq "" := by
          show (s.checkpoints ++ [newCheckpointRec tid "" ncid stp src msgs now none]).any
              (fun c => c.inConv tq "")
            = s.checkpoints.any (fun c => c.inConv tq "")
          rw [List.any_append]
          have hz : ([newCheckpointRec tid "" ncid stp src msgs now none].any
              (fun c => c.inConv tq "")) = false := by
            simp [newCheckpointRec, Checkpoint.inConv, hne]
          rw [hz, Bool.or_false]
        rw [h3] at hck
        exact hck

/-- C8: once a conversation has a branch record (or a checkpoint, which
the root-branch policy turns into a branch record), exactly one branch is
active, and every operation — fork, switch, time_travel, append —
preserves this invariant. -/
theorem C8_single_active_invariant (s : Store) (tid tq cid bid ncid rootBid : String)
    (reqName : Option String) (freshBid : String) (now stp : Nat) (src : String)
    (msgs : List String)
    (hnodup : (s.branches.map Branch.branch_id).Nodup)
    (hq : invariantAt s tq "")
    (ht : invariantAt s tid "")
    (hfresh : ∀ b ∈ s.branches, b.branch_id ≠ freshBid) :
    invariantAt (fork_branch s tid cid reqName freshBid now).1 tq ""
    ∧ invariantAt (switch_branch s tid bid).1 tq ""
    ∧ invariantAt (time_travel s tid cid reqName freshBid now).1 tq ""
    ∧ invariantAt (appendCheckpoint s tid "" ncid stp src msgs now rootBid) tq "" := by
  refine ⟨?_, ?_, ?_, ?_⟩
  · unfold fork_branch
    cases h : agetTupleById s tid "" cid with
    | none => exact hq
    | some c =>
      show invariantAt (cypherCreateBranch s tid "" freshBid
        (reqName.getD ("fork-" ++ freshBid.take 8)) cid now) tq ""
      exact invariantAt_createBranch s tid freshBid _ cid now tq hq
        (hasConvCheckpoint_of_find s tid "" cid c h) ht
  · have heq : (switch_branch s tid bid).1 = (cypherSetActiveBranch s tid "" bid).1 := by
      cases hex : branchExists s tid "" bid with
      | false => rw [switch_branch_store_not_exists s tid bid hex,
          setActive_not_exists s tid "" bid hex]
      | true => rw [switch_branch_store_exists s tid bid hex,
          setActive_exists s tid "" bid hex]
    rw [heq]
    exact invariantAt_setActive s tid bid tq hnodup hq
  · unfold time_travel
    cases h : agetTupleById s tid "" cid with
    | none => exact hq
    | some c =>
      show invariantAt (cypherUpdateBranchHead
        (cypherSetActiveBranch (cypherCreateBranch s tid "" freshBid
          (reqName.getD ("fork-" ++ freshBid.take 8)) cid now) tid "" freshBid).1
        tid "" cid) tq ""
      apply invariantAt_updateHead
      apply invariantAt_setActive
      · show ((s.branches ++ [newBranchRec tid "" freshBid
          (reqName.getD ("fork-" ++ freshBid.take 8)) cid now]).map Branch.branch_id).Nodup
        exact nodup_append_fresh s.branches _ hnodup (fun b hb => hfresh b hb)
      · exact invariantAt_createBranch s tid freshBid _ cid now tq hq
          (hasConvCheckpoint_of_find s tid "" cid c h) ht
  · exact invariantAt_append s tid ncid stp src msgs now rootBid tq hq ht

/-- Witness for C8 at the concrete store S0Fork with conversation t1:
each of the four operations leaves exactly one active branch. -/
theorem C8_single_active_invariant_witness :
    activeCount (fork_branch S0Fork "t1" "c0" none "bnew1" 9).1 "t1" "" = 1
    ∧ activeCount (switch_branch S0Fork "t1" "alt1").1 "t1" "" = 1
    ∧ activeCount (time_travel S0Fork "t1" "c0" none "bnew1" 9).1 "t1" "" = 1
    ∧ activeCount (appendCheckpoint S0Fork "t1" "" "c2" 2 "loop" ["x"] 9 "root1") "t1" ""
        = 1 := by
  have h := C8_single_active_invariant S0Fork "t1" "t1" "c0" "alt1" "c2" "root1" none
    "bnew1" 9 2 "loop" ["x"] (by decide) (by decide) (by decide) (by decide)
  exact ⟨h.1 (by decide), h.2.1 (by decide), h.2.2.1 (by decide), h.2.2.2 (by decide)⟩

end LGNeo4j
